import Mathlib

/-!
Verification development for the interactive 2D lens-layout engine
(`rayoptics.gui.layout` and `rayoptics.mpl.interactivelayout`).

Numbers are modelled as rationals (`ℚ`); numpy arrays of points become
lists of pairs; Python dicts become association lists with Python's
insert-or-overwrite update; operations that can raise (list/dict indexing)
return `Option`.
-/

namespace RayOptics

/-- Two-dimensional point with rational coordinates. -/
abbrev Vec2 : Type := ℚ × ℚ

/-- Three-dimensional point with rational coordinates. -/
abbrev Vec3 : Type := ℚ × ℚ × ℚ

/-- Row-major 2x2 matrix. -/
structure Mat2 where
  a : ℚ
  b : ℚ
  c : ℚ
  d : ℚ
  deriving DecidableEq, Repr

/-- Row-major 3x3 matrix. -/
structure Mat3 where
  m00 : ℚ
  m01 : ℚ
  m02 : ℚ
  m10 : ℚ
  m11 : ℚ
  m12 : ℚ
  m20 : ℚ
  m21 : ℚ
  m22 : ℚ
  deriving DecidableEq, Repr

/-- Matrix-vector product for `Mat3`, `rot.dot(v)` in the source. -/
def mat3apply (m : Mat3) (v : Vec3) : Vec3 :=
  (m.m00 * v.1 + m.m01 * v.2.1 + m.m02 * v.2.2,
   m.m10 * v.1 + m.m11 * v.2.1 + m.m12 * v.2.2,
   m.m20 * v.1 + m.m21 * v.2.1 + m.m22 * v.2.2)

/-- Matrix-vector product for `Mat2`. -/
def mat2apply (m : Mat2) (v : Vec2) : Vec2 :=
  (m.a * v.1 + m.b * v.2, m.c * v.1 + m.d * v.2)

/-- Lower-right 2x2 block `tfrm[0][1:, 1:]` of a 3x3 rotation. -/
def mat3block (m : Mat3) : Mat2 :=
  ⟨m.m11, m.m12, m.m21, m.m22⟩

def vec3add (u v : Vec3) : Vec3 := (u.1 + v.1, u.2.1 + v.2.1, u.2.2 + v.2.2)

def vec3sub (u v : Vec3) : Vec3 := (u.1 - v.1, u.2.1 - v.2.1, u.2.2 - v.2.2)

def vec3smul (q : ℚ) (v : Vec3) : Vec3 := (q * v.1, q * v.2.1, q * v.2.2)

def vec3dot (u v : Vec3) : ℚ := u.1 * v.1 + u.2.1 * v.2.1 + u.2.2 * v.2.2

def vec2add (u v : Vec2) : Vec2 := (u.1 + v.1, u.2 + v.2)

def vec2sub (u v : Vec2) : Vec2 := (u.1 - v.1, u.2 - v.2)

/-- Application of `coord_flip = [[0,1],[1,0]]` to a 2D point: swaps the
two coordinates. -/
def coordFlip (p : Vec2) : Vec2 := (p.2, p.1)

/-- A surface transform: a 3x3 rotation and a 3-vector translation,
the pairs stored in `seq_model.gbl_tfrms`. -/
abbrev Tfrm : Type := Mat3 × Vec3

/-- Translation part used by `transform_poly`: `np.array([tfrm[1][1], tfrm[1][2]])`. -/
def tfrmT2 (tfrm : Tfrm) : Vec2 := (tfrm.2.2.1, tfrm.2.2.2)

/-- Per-point action of `transform_poly` (layout.py lines 95-107): flip the
coordinates, apply the 2x2 rotation block, add the (y,z) translation, and
flip back to plot coordinates. -/
def transform_pt (tfrm : Tfrm) (p : Vec2) : Vec2 :=
  coordFlip (vec2add (mat2apply (mat3block tfrm.1) (coordFlip p)) (tfrmT2 tfrm))

/-- Axis-aligned bounding box: (min corner, max corner). -/
abbrev BBox : Type := Vec2 × Vec2

/-- Componentwise min/max over a polygon, `bbox_from_poly` (layout.py
lines 81-84).  `np.min` raises on an empty array, hence `Option`. -/
def bbox_from_poly (poly : List Vec2) : Option BBox :=
  match poly with
  | [] => none
  | p :: ps =>
    some (ps.foldl
      (fun bb q => ((min bb.1.1 q.1, min bb.1.2 q.2), (max bb.2.1 q.1, max bb.2.2 q.2)))
      ((p.1, p.2), (p.1, p.2)))

/-- Embedding of `transform_poly` (layout.py lines 95-107): the matrix
pipeline acts independently on each point of the polygon (the numpy code
maps the same affine map over every row), and the bounding box of the
result is returned with it. -/
def transform_poly (tfrm : Tfrm) (poly : List Vec2) : List Vec2 × Option BBox :=
  let gbl := poly.map (transform_pt tfrm)
  (gbl, bbox_from_poly gbl)

/-- Per-point action of `inv_transform_poly` (layout.py lines 110-121):
flip the coordinates, subtract the (y,z) translation, apply the SAME
2x2 rotation block `tfrm[0][1:, 1:]` (not its inverse), and flip back. -/
def inv_transform_pt (tfrm : Tfrm) (p : Vec2) : Vec2 :=
  coordFlip (mat2apply (mat3block tfrm.1) (vec2sub (coordFlip p) (tfrmT2 tfrm)))

/-- Embedding of `inv_transform_poly` (layout.py lines 110-121) as the
per-point map applied to each point of a polygon. -/
def inv_transform_poly (tfrm : Tfrm) (poly : List Vec2) : List Vec2 :=
  poly.map (inv_transform_pt tfrm)

/-- Identity 3x3 rotation. -/
def mat3id : Mat3 := ⟨1, 0, 0, 0, 1, 0, 0, 0, 1⟩

/-- Rotation by 90 degrees about the x axis: a legitimate surface tilt
whose lower-right block is the 2D rotation [[0,-1],[1,0]]. -/
def rotX90 : Mat3 := ⟨1, 0, 0, 0, 0, -1, 0, 1, 0⟩

/-- Association-list lookup, Python `d[k]` (`none` models a `KeyError`). -/
def dictLookup {α : Type} : List (String × α) → String → Option α
  | [], _ => none
  | (k, v) :: rest, key => if k = key then some v else dictLookup rest key

/-- Association-list update, Python `d[k] = v`: overwrite in place when the
key exists (keeping its position, as a Python dict does), append otherwise. -/
def dictInsert {α : Type} : List (String × α) → String → α → List (String × α)
  | [], key, v => [(key, v)]
  | (k, w) :: rest, key, v =>
    if k = key then (key, v) :: rest else (k, w) :: dictInsert rest key v

/-- One ray/surface intersection: point, direction, path length and surface
normal (`RaySeg` of `rayoptics.optical.trace`). -/
structure RaySeg where
  p : Vec3
  d : Vec3
  dst : ℚ
  nrml : Vec3
  deriving DecidableEq, Repr

/-- A traced ray as the layout code consumes it: `r.ray` is the segment
list (the other `RayPkg` fields are unused by the layout). -/
structure RayPkg where
  ray : List RaySeg
  deriving DecidableEq, Repr

/-- Body of the loop of `shift_start_of_ray_bundle` (layout.py lines 58-72)
for index `ri` and bundle element `r`, acting on the current `start_bundle`
list `sb`.  List accesses `r.ray[1]`, `r.ray[0]`, `start_bundle[0]` and the
assignment `start_bundle[ri] = ray0` raise `IndexError` when out of range,
modelled by `none`. -/
def shiftStep (rot : Mat3) (t : Vec3) (sb : List RaySeg) (ri : ℕ) (r : RayPkg) :
    Option (List RaySeg) :=
  match r.ray.get? 1, r.ray.get? 0 with
  | some s1, some s0 =>
    let b4pt := vec3sub (mat3apply rot s1.p) t
    let b4dir := mat3apply rot s0.d
    let odst : Option ℚ :=
      if ri = 0 then
        some (-b4pt.2.2 / b4dir.2.2)
      else
        match sb.get? 0 with
        | some c => some (-(vec3dot (vec3sub b4pt c.p) c.d) / vec3dot b4dir c.d)
        | none => none
    match odst with
    | some dst =>
      if ri < sb.length then
        some (sb.set ri ⟨vec3add b4pt (vec3smul dst b4dir), b4dir, dst, s0.nrml⟩)
      else none
    | none => none
  | _, _ => none

/-- The loop of `shift_start_of_ray_bundle` over the enumerated bundle. -/
def shiftGo (rot : Mat3) (t : Vec3) : List RaySeg → ℕ → List RayPkg → Option (List RaySeg)
  | sb, _, [] => some sb
  | sb, ri, r :: rest =>
    match shiftStep rot t sb ri r with
    | some sb2 => shiftGo rot t sb2 (ri + 1) rest
    | none => none

/-- Embedding of `shift_start_of_ray_bundle` (layout.py lines 46-72):
re-projects every ray start onto the virtual start plane, mutating
`start_bundle` in place (the chief ray, index 0, is shifted first and the
marginal rays then read the already-shifted chief through
`start_bundle[0]`). -/
def shift_start_of_ray_bundle (start_bundle : List RaySeg) (ray_bundle : List RayPkg)
    (rot : Mat3) (t : Vec3) : Option (List RaySeg) :=
  shiftGo rot t start_bundle 0 ray_bundle

/-- Embedding of `transform_ray_seg` (layout.py lines 75-78): the 2D plot
point `[p[2], p[1]]` of one transformed ray segment. -/
def transform_ray_seg (r : RaySeg) (tfrm : Tfrm) : Vec2 :=
  let p := vec3add (mat3apply tfrm.1 r.p) tfrm.2
  (p.2.2, p.2.1)

/-- Tail of `render_ray`: segments `ray[1:]` paired with `tfrms[i]` from
`i = 1` on; `tfrms[i]` raises when `tfrms` is too short. -/
def renderTail : List RaySeg → ℕ → List Tfrm → Option (List Vec2)
  | [], _, _ => some []
  | r :: rest, i, tfrms =>
    match tfrms.get? i with
    | none => none
    | some ti =>
      match renderTail rest (i + 1) tfrms with
      | none => none
      | some acc => some (transform_ray_seg r ti :: acc)

/-- Embedding of `RayBundle.render_ray` (layout.py lines 269-274): the start
segment under `tfrms[0]`, then each later segment under its own transform. -/
def render_ray (ray : List RaySeg) (startSeg : RaySeg) (tfrms : List Tfrm) :
    Option (List Vec2) :=
  match tfrms.get? 0 with
  | none => none
  | some t0 =>
    match renderTail (ray.drop 1) 1 tfrms with
    | none => none
    | some rest => some (transform_ray_seg startSeg t0 :: rest)

/-- Embedding of `RayBundle.render_shape` (layout.py lines 276-290): the
aggregate polygon spanning the `+Y` polyline and the reversed `-Y`
polyline, with its bounding box. -/
def render_shape (rayset : List (String × RayPkg)) (start_bundle : List RaySeg)
    (tfrms : List Tfrm) : Option (List Vec2 × BBox) :=
  match start_bundle.get? 3, dictLookup rayset "+Y",
        start_bundle.get? 4, dictLookup rayset "-Y" with
  | some sb3, some pY, some sb4, some mY =>
    match render_ray pY.ray sb3 tfrms, render_ray mY.ray sb4 tfrms with
    | some poly1, some poly2 =>
      let poly := poly1 ++ poly2.reverse
      match bbox_from_poly poly with
      | some bbox => some (poly, bbox)
      | none => none
    | _, _ => none
  | _, _, _, _ => none

/-- Drawable artifact materialised by the rendering backend
(`create_polygon` / `create_polyline` of interactivelayout.py), recording
the data the view call received; `zorder` is the explicit keyword when one
was passed. -/
inductive Artifact where
  | polygon (poly : List Vec2) (color : List ℚ) (zorder : Option ℚ)
  | polyline (poly : List Vec2)
  deriving DecidableEq, Repr

/-- A shape's handle entry: the (artifact, bounding box) pair. -/
abbrev HandleEntry : Type := Artifact × BBox

/-- The handles dict of a shape. -/
abbrev Handles : Type := List (String × HandleEntry)

/-- Fill color of a ray bundle, `[254, 197, 254, 64]` (magenta, 25%). -/
def rayBundleColor : List ℚ := [254, 197, 254, 64]

/-- Start bundle `[r.ray[0] for r in self.rayset.values()]` (layout.py line
308); `r.ray[0]` raises on an empty segment list. -/
def raysetStartBundle : List (String × RayPkg) → Option (List RaySeg)
  | [] => some []
  | (_, r) :: rest =>
    match r.ray.get? 0, raysetStartBundle rest with
    | some s, some l => some (s :: l)
    | _, _ => none

/-- Protected region of `RayBundle.update_shape` (the `try` block, layout.py
lines 315-323): the aggregate shape polygon and the three rendered rays. -/
def rayBundleTry (rayset : List (String × RayPkg)) (sb : List RaySeg)
    (tfrms : List Tfrm) :
    Option ((List Vec2 × BBox) × List Vec2 × List Vec2 × List Vec2) :=
  match render_shape rayset sb tfrms with
  | none => none
  | some pb =>
    match dictLookup rayset "00", sb.get? 0 with
    | some c00, some sb0 =>
      match render_ray c00.ray sb0 tfrms with
      | none => none
      | some cr =>
        match dictLookup rayset "+Y", sb.get? 3 with
        | some pY, some sb3 =>
          match render_ray pY.ray sb3 tfrms with
          | none => none
          | some upr =>
            match dictLookup rayset "-Y", sb.get? 4 with
            | some mY, some sb4 =>
              match render_ray mY.ray sb4 tfrms with
              | none => none
              | some lwr => some (pb, cr, upr, lwr)
            | _, _ => none
        | _, _ => none
    | _, _ => none

/-- Embedding of `RayBundle.update_shape` (layout.py lines 292-339), with
the external collaborators passed in: `rayset` is the traced boundary-ray
dict (`boundary_ray_dict` of the out-of-scope trace engine), `setupRT` the
synthetic transform `setup_shift_of_ray_bundle` computes from the
out-of-scope `transform.reverse_transform`, and `prior` the shape's current
handles dict.  Returns the handles (`none` when an exception propagates)
together with the final state of the mutable `seq_model.gbl_tfrms` list.
The override `tfrms[0] = (rot, t)` and the start shift run BEFORE the
`try`, whose `finally` restores `tfrms[0] = tfrtm0`. -/
def rayBundleUpdateShape (rayset : List (String × RayPkg)) (tfrms0 : List Tfrm)
    (startOffset : ℚ) (setupRT : Tfrm) (prior : Handles) :
    Option Handles × List Tfrm :=
  match tfrms0.get? 0 with
  | none => (none, tfrms0)
  | some tfrtm0 =>
    match raysetStartBundle rayset with
    | none => (none, tfrms0)
    | some sb0 =>
      let shifted : List Tfrm × Option (List RaySeg) :=
        if |tfrtm0.2.2.2| > startOffset then
          (tfrms0.set 0 setupRT,
           shift_start_of_ray_bundle sb0 (rayset.map Prod.snd) setupRT.1 setupRT.2)
        else (tfrms0, some sb0)
      match shifted.2 with
      | none => (none, shifted.1)
      | some sb =>
        match rayBundleTry rayset sb shifted.1 with
        | none => (none, shifted.1.set 0 tfrtm0)
        | some (pb, cr, upr, lwr) =>
          let tfrms2 := shifted.1.set 0 tfrtm0
          match bbox_from_poly cr, bbox_from_poly upr, bbox_from_poly lwr with
          | some bcr, some bupr, some blwr =>
            (some (dictInsert (dictInsert (dictInsert (dictInsert prior
                "shape" (Artifact.polygon pb.1 rayBundleColor none, pb.2))
                "00" (Artifact.polyline cr, bcr))
                "+Y" (Artifact.polyline upr, bupr))
                "-Y" (Artifact.polyline lwr, blwr)),
             tfrms2)
          | _, _, _ => (none, tfrms2)

/-- Raw handle of an optical element as `e.render_handles` leaves it in
`e.handles`: local-frame polygon `value[0]`, transform `value[1]` and the
polygon/polyline discriminant tag `value[2]`. -/
abbrev RawHandle : Type := List Vec2 × Tfrm × String

/-- Discriminant tag of a raw handle. -/
def rawTag (r : RawHandle) : String := r.2.2

/-- Tags the `update_shape` loop knows how to render. -/
def knownTag (r : RawHandle) : Bool := rawTag r = "polygon" || rawTag r = "polyline"

/-- The (artifact, bbox) entry `OpticalElement.update_shape` builds for one
raw handle: the transformed polygon as a filled polygon (zorder 2.5) or an
open polyline, `none` for an unknown tag or an empty polygon. -/
def builtEntry (rndrColor : List ℚ) (r : RawHandle) : Option HandleEntry :=
  match transform_poly r.2.1 r.1 with
  | (polyGbl, some bbox) =>
    if rawTag r = "polygon" then
      some (Artifact.polygon polyGbl rndrColor (some (5 / 2)), bbox)
    else if rawTag r = "polyline" then
      some (Artifact.polyline polyGbl, bbox)
    else none
  | (_, none) => none

/-- Embedding of `OpticalElement.update_shape` (layout.py lines 141-154):
walks `e.handles` in order, transforming each raw handle and writing the
created artifact into `self.handles` (which is NOT cleared first — `prior`
is the dict left by earlier calls).  An unknown tag hits the loop's
`break`, returning the dict built so far; an empty polygon makes
`bbox_from_poly` raise, modelled by `none`. -/
def opticalElementUpdateShape (rndrColor : List ℚ) :
    List (String × RawHandle) → Handles → Option Handles
  | [], prior => some prior
  | (key, rh) :: rest, prior =>
    match transform_poly rh.2.1 rh.1 with
    | (polyGbl, some bbox) =>
      if rawTag rh = "polygon" then
        opticalElementUpdateShape rndrColor rest
          (dictInsert prior key (Artifact.polygon polyGbl rndrColor (some (5 / 2)), bbox))
      else if rawTag rh = "polyline" then
        opticalElementUpdateShape rndrColor rest
          (dictInsert prior key (Artifact.polyline polyGbl, bbox))
      else some prior
    | (_, none) => none

/-- Raw handles processed before the loop of `OpticalElement.update_shape`
hits its `break`: the longest prefix whose tags are all known. -/
def knownHandles (eHandles : List (String × RawHandle)) : List (String × RawHandle) :=
  eHandles.takeWhile fun h => knownTag h.2

/-- A rendered artist as hit-testing sees it: z-order, whether it carries a
`shape` attribute (only artists the layout created do), whether its
geometry contains the pointer event, and an identity tag recording the
order in which artists were added. -/
structure Artist where
  zorder : ℚ
  hasShape : Bool
  containsPt : Bool
  tag : ℕ
  deriving DecidableEq, Repr

/-- Stable descending insertion by z-order: an element moves past entries
with strictly greater z-order and stops before the first entry whose
z-order is not greater, so earlier-added artists stay first among equals —
exactly the order Python's stable `sorted(..., reverse=True)` produces. -/
def insertDesc (a : Artist) : List Artist → List Artist
  | [] => [a]
  | b :: rest => if b.zorder > a.zorder then b :: insertDesc a rest else a :: b :: rest

/-- Stable sort of artists by descending z-order. -/
def sortDescZ : List Artist → List Artist
  | [] => []
  | a :: rest => insertDesc a (sortDescZ rest)

/-- Embedding of `InteractiveLayout.find_artists_at_location`
(interactivelayout.py lines 201-212): keep the children that carry a
`shape` attribute and contain the event, sorted by descending z-order with
Python's stable sort.  `on_motion` takes `artists[0]` of this list as the
hit target. -/
def find_artists_at_location (children : List Artist) : List Artist :=
  sortDescZ (children.filter fun a => a.hasShape && a.containsPt)

/-- The shape a hit artist points back to, reduced to its action table:
event kind mapped to an opaque handler identifier. -/
structure ShapeRef where
  actions : List (String × ℕ)
  deriving DecidableEq, Repr

/-- An artist hit by the pointer together with its `(shape, handle)`
attribute. -/
structure HitTarget where
  shape : ShapeRef
  handle : String
  deriving DecidableEq, Repr

/-- Embedding of `InteractiveLayout.do_action` (interactivelayout.py lines
214-221): look the event kind up in the target shape's action table and
invoke the handler; the `except KeyError: pass` around the lookup makes a
missing entry a silent no-op.  Returns the (handler, handle) invocations
performed. -/
def do_action (target : Option HitTarget) (eventKey : String) : List (ℕ × String) :=
  match target with
  | none => []
  | some t =>
    match dictLookup t.shape.actions eventKey with
    | none => []
    | some act => [(act, t.handle)]

/-- Action table `RayBundle.edit_ray_bundle_actions` builds (layout.py
lines 341-352): only a `press` entry. -/
def edit_ray_bundle_actions : List (String × ℕ) := [("press", 0)]

/-- Scene-level interaction state of `InteractiveLayout`: the fields
pointer-event handlers touch, plus the artist list and view box standing
for the rest of the scene. -/
structure SceneState where
  doScaleBounds : Bool
  hilitedArtist : Option HitTarget
  selectedArtist : Option HitTarget
  artists : List Artist
  viewBbox : Option BBox
  deriving DecidableEq, Repr

/-- Embedding of `InteractiveLayout.on_press` (interactivelayout.py lines
223-226): clear `do_scale_bounds`, promote the hovered artist to
press/drag target, dispatch `press`. -/
def on_press (st : SceneState) : SceneState × List (ℕ × String) :=
  ({ st with doScaleBounds := false, selectedArtist := st.hilitedArtist },
   do_action st.hilitedArtist "press")

/-- Axis lock of a drag gesture (`self.move_direction`). -/
inductive MoveDir where
  | x
  | y
  deriving DecidableEq, Repr

/-- Dict key of an axis lock. -/
def moveDirKey : MoveDir → String
  | .x => "x"
  | .y => "y"

/-- An `Action` object of the optical model: the event kinds its `actions`
dict has handlers for. -/
structure ActionObj where
  kinds : List String
  deriving DecidableEq, Repr

/-- The handle-action table of one handle: degree-of-freedom key
(`pt`/`x`/`y`) mapped to its action object. -/
abbrev HandleActions : Type := List (String × ActionObj)

/-- Per-shape interaction state captured by the edit-action closures. -/
structure ShapeEditState where
  select_pt : Option (Vec2 × Vec2)
  move_direction : Option MoveDir
  deriving DecidableEq, Repr

/-- A pointer event: pixel coordinates and data coordinates. -/
structure EditEvent where
  x : ℚ
  y : ℚ
  xdata : ℚ
  ydata : ℚ
  deriving DecidableEq, Repr

/-- A drag dispatch performed by `on_edit_shape`: the free-point action
with the local-frame point, or an axis action with its scalar delta. -/
inductive DragInvoke where
  | pt (lcl : Vec2)
  | dx (v : ℚ)
  | dy (v : ℚ)
  deriving DecidableEq, Repr

/-- Embedding of the `drag` closure `on_edit_shape` of
`OpticalElement.edit_shape_actions` (layout.py lines 177-215):
look up the handle's action table and the press point (both raise when
missing, hence `Option`), fix the axis lock once per gesture from the
absolute pixel deltas, transform the pointer's data coordinates into the
shape's local frame through `inv_transform_poly`, then dispatch: a `pt`
entry takes priority and receives the local point; otherwise the locked
axis entry, when present, receives the matching data-coordinate delta.
Returns the new shape state and the dispatches performed. -/
def on_edit_shape (handleActions : List (String × HandleActions))
    (eHandlesTfrm : List (String × Tfrm)) (st : ShapeEditState)
    (handle : String) (event : EditEvent) :
    Option (ShapeEditState × List DragInvoke) :=
  match dictLookup handleActions handle with
  | none => none
  | some ha =>
    match st.select_pt with
    | none => none
    | some sp =>
      let deltaX := |sp.1.1 - event.x|
      let deltaY := |sp.1.2 - event.y|
      let md : Option MoveDir :=
        match st.move_direction with
        | none =>
          if deltaX > deltaY then some .x
          else if deltaX < deltaY then some .y
          else none
        | some d => some d
      let gblPt : Vec2 := (event.xdata, event.ydata)
      match dictLookup eHandlesTfrm handle with
      | none => none
      | some tfrm =>
        let lclPt := inv_transform_pt tfrm gblPt
        let dxdy : Vec2 := (event.xdata - sp.2.1, event.ydata - sp.2.2)
        let played : List DragInvoke :=
          match dictLookup ha "pt" with
          | some o => if o.kinds.contains "drag" then [DragInvoke.pt lclPt] else []
          | none =>
            match md with
            | some d =>
              match dictLookup ha (moveDirKey d) with
              | some o =>
                if o.kinds.contains "drag" then
                  match d with
                  | .x => [DragInvoke.dx dxdy.1]
                  | .y => [DragInvoke.dy dxdy.2]
                else []
              | none => []
            | none => []
        some ({ st with move_direction := md }, played)

/-!
Theorems settling the claims.
-/

/-- C1: applying `transform_poly` and then `inv_transform_poly` with the
same rotation/translation transform does NOT reproduce the original local
polygon: for a 90-degree surface tilt and zero translation, the point
(1, 0) round-trips to (-1, 0) — `inv_transform_poly` applies the rotation
block `tfrm[0][1:, 1:]` again instead of its inverse (transpose), so the
round trip rotates by twice the angle. -/
theorem transform_poly_roundtrip_fails :
    inv_transform_poly (rotX90, (0, 0, 0))
        (transform_poly (rotX90, (0, 0, 0)) [((1 : ℚ), (0 : ℚ))]).1 = [(-1, 0)]
    ∧ ([((-1 : ℚ), (0 : ℚ))] : List Vec2) ≠ [(1, 0)] := by
  constructor
  · norm_num [inv_transform_poly, transform_poly, inv_transform_pt, transform_pt,
      mat3block, mat2apply, coordFlip, tfrmT2, vec2add, vec2sub, rotX90]
  · norm_num

/-- C3: for a chief ray whose transformed direction has z component zero,
`shift_start_of_ray_bundle` completes without raising but OVERWRITES the
ray's start with the degenerate computed point instead of leaving the
original unshifted point: here the original start is (0,0,0) and the
stored start becomes (0,0,-1) (the code has no guard on `b4_dir[2]`;
in numpy the division yields inf/nan with only a warning). -/
theorem shift_degenerate_overwrites_start :
    shift_start_of_ray_bundle
        [⟨(0, 0, 0), (1, 0, 0), 0, (0, 0, 1)⟩]
        [⟨[⟨(0, 0, 0), (1, 0, 0), 0, (0, 0, 1)⟩, ⟨(0, 0, 0), (1, 0, 0), 1, (0, 0, 1)⟩]⟩]
        mat3id (0, 0, 1)
      = some [⟨(0, 0, -1), (1, 0, 0), 0, (0, 0, 1)⟩]
    ∧ ((0, 0, -1) : Vec3) ≠ ((0, 0, 0) : Vec3) := by
  constructor
  · norm_num [shift_start_of_ray_bundle, shiftGo, shiftStep, mat3id, mat3apply,
      vec3sub, vec3add, vec3smul, vec3dot]
  · norm_num

/-- C9: for a chief ray whose transformed start point has z component 5 and
transformed direction z component -1, the start-shift computation stores
intersection distance `dst = -point_z / direction_z = 5` and the shifted
start point lies on the virtual plane (z = 0 in the virtual frame). -/
theorem chief_ray_start_shift (rot : Mat3) (t : Vec3) (r : RayPkg) (s0 s1 : RaySeg)
    (b : RaySeg) (sbt : List RaySeg)
    (h0 : r.ray[0]? = some s0) (h1 : r.ray[1]? = some s1)
    (hz : (vec3sub (mat3apply rot s1.p) t).2.2 = 5)
    (hd : (mat3apply rot s0.d).2.2 = -1) :
    ∃ seg : RaySeg,
      shift_start_of_ray_bundle (b :: sbt) [r] rot t = some (seg :: sbt)
      ∧ seg.dst = 5 ∧ seg.p.2.2 = 0 := by
  have hdst : -(vec3sub (mat3apply rot s1.p) t).2.2 / (mat3apply rot s0.d).2.2 = 5 := by
    rw [hz, hd]; norm_num
  refine ⟨⟨vec3add (vec3sub (mat3apply rot s1.p) t)
      (vec3smul 5 (mat3apply rot s0.d)), mat3apply rot s0.d, 5, s0.nrml⟩, ?_, rfl, ?_⟩
  · simp [shift_start_of_ray_bundle, shiftGo, shiftStep, h0, h1, hdst]
  · simp [vec3add, vec3smul, hz, hd]

/-- C9 witness: a concrete chief ray with identity transform, start point
(0,0,5) and direction (0,0,-1) shifts with `dst = 5` onto the plane. -/
theorem chief_ray_start_shift_witness :
    ∃ seg : RaySeg,
      shift_start_of_ray_bundle [⟨(0, 0, 0), (0, 0, -1), 0, (0, 1, 0)⟩]
          [⟨[⟨(0, 0, 0), (0, 0, -1), 0, (0, 1, 0)⟩, ⟨(0, 0, 5), (0, 0, -1), 5, (0, 1, 0)⟩]⟩]
          mat3id (0, 0, 0)
        = some (seg :: [])
      ∧ seg.dst = 5 ∧ seg.p.2.2 = 0 :=
  chief_ray_start_shift mat3id (0, 0, 0)
    ⟨[⟨(0, 0, 0), (0, 0, -1), 0, (0, 1, 0)⟩, ⟨(0, 0, 5), (0, 0, -1), 5, (0, 1, 0)⟩]⟩
    ⟨(0, 0, 0), (0, 0, -1), 0, (0, 1, 0)⟩ ⟨(0, 0, 5), (0, 0, -1), 5, (0, 1, 0)⟩
    ⟨(0, 0, 0), (0, 0, -1), 0, (0, 1, 0)⟩ []
    (by rfl) (by rfl)
    (by norm_num [vec3sub, mat3apply, mat3id])
    (by norm_num [mat3apply, mat3id])

/-- C2 counterexample: an execution of `RayBundle.update_shape` that
overrides `tfrms[0]` and then propagates a failure WITHOUT restoring it.
The object distance 10 exceeds the start offset 1, so the transform is
overridden; the chief ray has a single segment, so the start shift's
`r.ray[1]` access raises — but that happens BEFORE the `try`, so the
`finally` never runs and `tfrms[0]` is left at the synthetic transform
(0,0,0) instead of the original (0,0,10). -/
theorem rayBundle_shift_failure_leaves_override :
    rayBundleUpdateShape [("00", ⟨[⟨(0, 0, 0), (0, 0, 1), 0, (0, 0, 1)⟩]⟩)]
        [(mat3id, (0, 0, 10))] 1 (mat3id, (0, 0, 0)) []
      = (none, [(mat3id, (0, 0, 0))])
    ∧ ((mat3id, ((0 : ℚ), (0 : ℚ), (0 : ℚ))) : Tfrm) ≠ (mat3id, (0, 0, 10)) := by
  constructor
  · norm_num [rayBundleUpdateShape, raysetStartBundle, shift_start_of_ray_bundle,
      shiftGo, shiftStep, mat3id]
  · norm_num [Prod.ext_iff]

/-- C2 amended: whenever the start-shift computation itself does not raise
(in particular on every exit of the protected rendering block, success or
failure), `RayBundle.update_shape` leaves `tfrms[0]` equal to its original
value on return. -/
theorem rayBundle_update_shape_restores_tfrm (rayset : List (String × RayPkg))
    (tfrms0 : List Tfrm) (startOffset : ℚ) (setupRT : Tfrm) (prior : Handles)
    (t0 : Tfrm) (sb0 : List RaySeg)
    (h0 : tfrms0.get? 0 = some t0)
    (hsb : raysetStartBundle rayset = some sb0)
    (hshift : ¬ |t0.2.2.2| > startOffset
      ∨ shift_start_of_ray_bundle sb0 (rayset.map Prod.snd) setupRT.1 setupRT.2 ≠ none) :
    ((rayBundleUpdateShape rayset tfrms0 startOffset setupRT prior).2).get? 0
      = some t0 := by
  cases tfrms0 with
  | nil => simp at h0
  | cons t0' rest =>
    simp only [List.get?_cons_zero, Option.some.injEq] at h0
    subst h0
    by_cases hc : |t0'.2.2.2| > startOffset
    · rcases hshift with h | h
      · exact absurd hc h
      · cases hs : shift_start_of_ray_bundle sb0 (rayset.map Prod.snd) setupRT.1 setupRT.2 with
        | none => exact absurd hs h
        | some sb =>
          simp only [rayBundleUpdateShape, List.get?_cons_zero, hsb, if_pos hc, hs]
          cases htry : rayBundleTry rayset sb ((t0' :: rest).set 0 setupRT) with
          | none => simp [htry, List.set]
          | some v =>
            obtain ⟨pb, cr, upr, lwr⟩ := v
            simp only [htry]
            cases bbox_from_poly cr <;> cases bbox_from_poly upr <;>
              cases bbox_from_poly lwr <;> simp [List.set]
    · simp only [rayBundleUpdateShape, List.get?_cons_zero, hsb, if_neg hc]
      cases htry : rayBundleTry rayset sb0 (t0' :: rest) with
      | none => simp [htry, List.set]
      | some v =>
        obtain ⟨pb, cr, upr, lwr⟩ := v
        simp only [htry]
        cases bbox_from_poly cr <;> cases bbox_from_poly upr <;>
          cases bbox_from_poly lwr <;> simp [List.set]

/-- C2 witness: a concrete run (no rays, object distance within the start
offset) after which `tfrms[0]` equals its original value. -/
theorem rayBundle_update_shape_restores_tfrm_witness :
    ((rayBundleUpdateShape [] [(mat3id, (0, 0, 0))] 1 (mat3id, (0, 0, 0)) []).2).get? 0
      = some (mat3id, (0, 0, 0)) :=
  rayBundle_update_shape_restores_tfrm [] [(mat3id, (0, 0, 0))] 1 (mat3id, (0, 0, 0))
    [] (mat3id, (0, 0, 0)) [] (by rfl) (by rfl) (Or.inl (by norm_num))

lemma insertDesc_ne_nil (a : Artist) (l : List Artist) : insertDesc a l ≠ [] := by
  cases l with
  | nil => simp [insertDesc]
  | cons b rest =>
    simp only [insertDesc]
    split <;> simp

lemma sortDescZ_eq_nil {l : List Artist} (h : sortDescZ l = []) : l = [] := by
  cases l with
  | nil => rfl
  | cons a rest => exact absurd h (insertDesc_ne_nil a (sortDescZ rest))

/-- Head of the stable descending sort: the first element of the input
attaining the maximal z-order. -/
lemma sortDescZ_head_spec (l : List Artist) (a : Artist)
    (h : (sortDescZ l).head? = some a) :
    ∃ pre post, l = pre ++ a :: post
      ∧ (∀ b ∈ pre, b.zorder < a.zorder)
      ∧ (∀ b ∈ l, b.zorder ≤ a.zorder) := by
  induction l generalizing a with
  | nil => simp [sortDescZ] at h
  | cons x rest ih =>
    rw [sortDescZ] at h
    cases hs : sortDescZ rest with
    | nil =>
      obtain rfl : rest = [] := sortDescZ_eq_nil hs
      rw [hs] at h
      simp only [insertDesc, List.head?_cons, Option.some.injEq] at h
      subst h
      exact ⟨[], [], rfl, by simp, by simp⟩
    | cons c cs =>
      rw [hs] at h
      have hc : (sortDescZ rest).head? = some c := by rw [hs]; rfl
      obtain ⟨pre, post, hdec, hpre, hall⟩ := ih c hc
      simp only [insertDesc] at h
      by_cases hcx : c.zorder > x.zorder
      · rw [if_pos hcx] at h
        simp only [List.head?_cons, Option.some.injEq] at h
        subst h
        refine ⟨x :: pre, post, by simp [hdec], ?_, ?_⟩
        · intro b hb
          rcases List.mem_cons.mp hb with rfl | hb
          · exact hcx
          · exact hpre b hb
        · intro b hb
          rcases List.mem_cons.mp hb with rfl | hb
          · exact le_of_lt hcx
          · exact hall b hb
      · rw [if_neg hcx] at h
        simp only [List.head?_cons, Option.some.injEq] at h
        subst h
        refine ⟨[], rest, rfl, by simp, ?_⟩
        intro b hb
        rcases List.mem_cons.mp hb with rfl | hb
        · exact le_refl _
        · exact le_trans (hall b hb) (not_lt.mp hcx)

/-- C4 counterexample: two containing artifacts share the highest z-order
(2.0); the hit target `artists[0]` is the EARLIEST-added one (tag 0), not
the most-recently-added one (tag 1) — Python's `sorted(..., reverse=True)`
is stable, so equal z-orders keep scene-list order. -/
theorem hit_target_tie_not_most_recent :
    (find_artists_at_location [⟨2, true, true, 0⟩, ⟨2, true, true, 1⟩]).head?
      = some ⟨2, true, true, 0⟩
    ∧ (⟨2, true, true, 0⟩ : Artist) ≠ ⟨2, true, true, 1⟩ := by
  constructor
  · norm_num [find_artists_at_location, sortDescZ, insertDesc]
  · simp

/-- C4 amended: the hit target is a rendered artifact containing the point
whose z-order is maximal among all such artifacts, and among the maxima it
is the EARLIEST-added (every containing artifact listed before it has a
strictly smaller z-order). -/
theorem hit_target_topmost_earliest (children : List Artist) (a : Artist)
    (h : (find_artists_at_location children).head? = some a) :
    ∃ pre post,
      children.filter (fun x => x.hasShape && x.containsPt) = pre ++ a :: post
      ∧ (∀ b ∈ pre, b.zorder < a.zorder)
      ∧ (∀ b ∈ children.filter (fun x => x.hasShape && x.containsPt),
          b.zorder ≤ a.zorder) :=
  sortDescZ_head_spec _ a h

/-- C4 witness: with overlapping artifacts of z-orders 1.0 and 2.0 the hit
target is the one with z-order 2.0, which bounds every candidate. -/
theorem hit_target_topmost_earliest_witness :
    ∃ pre post,
      List.filter (fun x => x.hasShape && x.containsPt)
          [(⟨1, true, true, 0⟩ : Artist), ⟨2, true, true, 1⟩]
        = pre ++ (⟨2, true, true, 1⟩ : Artist) :: post
      ∧ (∀ b ∈ pre, b.zorder < (2 : ℚ))
      ∧ (∀ b ∈ List.filter (fun x => x.hasShape && x.containsPt)
            [(⟨1, true, true, 0⟩ : Artist), ⟨2, true, true, 1⟩], b.zorder ≤ (2 : ℚ)) :=
  hit_target_topmost_earliest [⟨1, true, true, 0⟩, ⟨2, true, true, 1⟩] ⟨2, true, true, 1⟩
    (by norm_num [find_artists_at_location, sortDescZ, insertDesc])

/-- C5: the drag-axis lock is sticky — when `move_direction` is already
set, one more motion-event dispatch through `on_edit_shape` leaves it
unchanged, whatever the new pixel deltas are. -/
theorem move_direction_sticky (handleActions : List (String × HandleActions))
    (eHandlesTfrm : List (String × Tfrm)) (st : ShapeEditState)
    (handle : String) (event : EditEvent) (d : MoveDir)
    (hd : st.move_direction = some d) :
    ∀ st2 played, on_edit_shape handleActions eHandlesTfrm st handle event
        = some (st2, played) → st2.move_direction = some d := by
  intro st2 played h
  unfold on_edit_shape at h
  cases hha : dictLookup handleActions handle <;> rw [hha] at h
  · exact absurd h (by simp)
  · cases hsp : st.select_pt <;> rw [hsp] at h
    · exact absurd h (by simp)
    · simp only [hd] at h
      cases htf : dictLookup eHandlesTfrm handle <;> rw [htf] at h
      · exact absurd h (by simp)
      · simp only [Option.some.injEq, Prod.mk.injEq] at h
        obtain ⟨h1, _⟩ := h
        rw [← h1]

/-- C5 witness: a gesture locked to `x` from press point (0,0) stays locked
to `x` on a motion event whose vertical pixel delta (100) far exceeds the
horizontal one (1). -/
theorem move_direction_sticky_witness :
    (⟨some ((0, 0), (0, 0)), some MoveDir.x⟩ : ShapeEditState).move_direction
        = some MoveDir.x
    ∧ ∀ st2 played,
        on_edit_shape [("h", [("x", ⟨["drag"]⟩)])] [("h", (mat3id, (0, 0, 0)))]
            ⟨some ((0, 0), (0, 0)), some MoveDir.x⟩ "h" ⟨1, 100, 1, 100⟩
          = some (st2, played) → st2.move_direction = some MoveDir.x :=
  ⟨rfl, move_direction_sticky [("h", [("x", ⟨["drag"]⟩)])] [("h", (mat3id, (0, 0, 0)))]
    ⟨some ((0, 0), (0, 0)), some MoveDir.x⟩ "h" ⟨1, 100, 1, 100⟩ MoveDir.x rfl⟩

/-- C10: when the handle-action table of the handle under the cursor has a
`pt` entry, the drag dispatch invokes only the free-point action — with the
pointer position mapped into the shape's local frame by
`inv_transform_poly` — and never the axis-locked `x`/`y` actions, whatever
the current axis lock is (the `pt` branch is checked before the
`move_direction` branch). -/
theorem pt_handle_priority_drag (handleActions : List (String × HandleActions))
    (eHandlesTfrm : List (String × Tfrm)) (st : ShapeEditState)
    (handle : String) (event : EditEvent) (ha : HandleActions) (o : ActionObj)
    (tfrm : Tfrm) (sp : Vec2 × Vec2)
    (hha : dictLookup handleActions handle = some ha)
    (hpt : dictLookup ha "pt" = some o)
    (htf : dictLookup eHandlesTfrm handle = some tfrm)
    (hsp : st.select_pt = some sp) :
    (on_edit_shape handleActions eHandlesTfrm st handle event).map Prod.snd
      = some (if o.kinds.contains "drag"
          then [DragInvoke.pt (inv_transform_pt tfrm (event.xdata, event.ydata))]
          else []) := by
  simp only [on_edit_shape, hha, hsp, htf, hpt, Option.map]

/-- C10 witness: a concrete handle with a `pt` drag action dispatches the
free-point action at the locally-transformed pointer position even though
the gesture is axis-locked to `y`. -/
theorem pt_handle_priority_drag_witness :
    (on_edit_shape [("h", [("pt", ⟨["press", "drag", "release"]⟩)])]
        [("h", (mat3id, (0, 0, 0)))] ⟨some ((0, 0), (0, 0)), some MoveDir.y⟩ "h"
        ⟨1, 2, 3, 4⟩).map Prod.snd
      = some (if ActionObj.kinds ⟨["press", "drag", "release"]⟩ |>.contains "drag"
          then [DragInvoke.pt (inv_transform_pt (mat3id, (0, 0, 0)) (3, 4))]
          else []) :=
  pt_handle_priority_drag [("h", [("pt", ⟨["press", "drag", "release"]⟩)])]
    [("h", (mat3id, (0, 0, 0)))] ⟨some ((0, 0), (0, 0)), some MoveDir.y⟩ "h"
    ⟨1, 2, 3, 4⟩ [("pt", ⟨["press", "drag", "release"]⟩)]
    ⟨["press", "drag", "release"]⟩ (mat3id, (0, 0, 0)) ((0, 0), (0, 0))
    (by simp [dictLookup]) (by simp [dictLookup]) (by simp [dictLookup]) rfl

/-- C7 counterexample: a press with no artifact hovered is NOT free of
state changes — `on_press` unconditionally clears `do_scale_bounds`
(disabling automatic view-bound rescaling) before looking at the hover
target. -/
theorem on_press_no_hover_clears_scale_flag :
    (on_press ⟨true, none, none, [], none⟩).1.doScaleBounds = false
    ∧ (⟨true, none, none, [], none⟩ : SceneState).doScaleBounds = true
    ∧ (⟨true, none, none, [], none⟩ : SceneState).hilitedArtist = none :=
  ⟨rfl, rfl, rfl⟩

/-- C7 amended: a press with no artifact hovered dispatches no action and
sets no drag target (the target stays `none`); every scene field other
than the auto-rescale flag `do_scale_bounds`, which is cleared, keeps its
prior value. -/
theorem on_press_no_hover_noop (st : SceneState) (h : st.hilitedArtist = none) :
    on_press st = ({ st with doScaleBounds := false, selectedArtist := none }, []) := by
  simp [on_press, do_action, h]

/-- C7 witness: a concrete scene with no hover — the press only clears the
rescale flag and dispatches nothing. -/
theorem on_press_no_hover_noop_witness :
    on_press ⟨true, none, none, [], none⟩ = (⟨false, none, none, [], none⟩, []) :=
  on_press_no_hover_noop ⟨true, none, none, [], none⟩ rfl

/-- C8: dispatching an event kind absent from the target shape's action
table is a no-op — the `KeyError` of the lookup is caught and no handler
is invoked. -/
theorem do_action_missing_key_noop (t : HitTarget) (eventKey : String)
    (h : dictLookup t.shape.actions eventKey = none) :
    do_action (some t) eventKey = [] := by
  simp [do_action, h]

/-- C8 witness: a ray bundle's action table holds only `press`, so a
`drag` dispatch on it invokes nothing. -/
theorem do_action_missing_key_noop_witness :
    dictLookup (⟨⟨edit_ray_bundle_actions⟩, "00"⟩ : HitTarget).shape.actions "drag" = none
    ∧ do_action (some ⟨⟨edit_ray_bundle_actions⟩, "00"⟩) "drag" = [] :=
  ⟨by simp [edit_ray_bundle_actions, dictLookup],
   do_action_missing_key_noop ⟨⟨edit_ray_bundle_actions⟩, "00"⟩ "drag"
     (by simp [edit_ray_bundle_actions, dictLookup])⟩

lemma dictLookup_dictInsert_self {α : Type} (l : List (String × α)) (k : String) (v : α) :
    dictLookup (dictInsert l k v) k = some v := by
  induction l with
  | nil => simp [dictInsert, dictLookup]
  | cons hd rest ih =>
    obtain ⟨k0, w⟩ := hd
    by_cases hk : k0 = k
    · simp [dictInsert, dictLookup, hk]
    · simp [dictInsert, dictLookup, hk, ih]

lemma dictLookup_dictInsert_other {α : Type} (l : List (String × α)) (k k2 : String)
    (v : α) (h : k2 ≠ k) :
    dictLookup (dictInsert l k v) k2 = dictLookup l k2 := by
  induction l with
  | nil => simp [dictInsert, dictLookup, Ne.symm h]
  | cons hd rest ih =>
    obtain ⟨k0, w⟩ := hd
    simp only [dictInsert, dictLookup]
    by_cases hk : k0 = k
    · rw [if_pos hk]
      simp only [dictLookup]
      rw [if_neg (Ne.symm h), if_neg (fun hh : k0 = k2 => h (hh ▸ hk))]
    · rw [if_neg hk]
      simp only [dictLookup]
      by_cases hk2 : k0 = k2
      · rw [if_pos hk2, if_pos hk2]
      · rw [if_neg hk2, if_neg hk2, ih]

/-- C6 counterexample: `OpticalElement.update_shape` does NOT fully replace
the previous handle mapping — `self.handles` is never cleared, so an entry
written by an earlier call under a key (`old`) absent from the element's
current rendered handles survives in the returned mapping. -/
theorem optical_update_shape_stale_entry_survives :
    opticalElementUpdateShape [1, 2, 3, 4]
        [("shape", ([(1, 2)], (mat3id, (0, 0, 0)), "polygon"))]
        [("old", (Artifact.polyline [(9, 9)], ((9, 9), (9, 9))))]
      = some [("old", (Artifact.polyline [(9, 9)], ((9, 9), (9, 9)))),
          ("shape", (Artifact.polygon [(1, 2)] [1, 2, 3, 4] (some (5 / 2)),
            ((1, 2), (1, 2))))]
    ∧ dictLookup [(("old" : String), (Artifact.polyline [((9 : ℚ), (9 : ℚ))],
            (((9 : ℚ), (9 : ℚ)), ((9 : ℚ), (9 : ℚ))))),
          ("shape", (Artifact.polygon [(1, 2)] [1, 2, 3, 4] (some (5 / 2)),
            ((1, 2), (1, 2))))] "old"
        = some (Artifact.polyline [(9, 9)], ((9, 9), (9, 9)))
    ∧ ("old" : String) ≠ "shape" := by
  refine ⟨?_, ?_, ?_⟩
  · norm_num [opticalElementUpdateShape, transform_poly, transform_pt, bbox_from_poly,
      mat3block, mat2apply, coordFlip, tfrmT2, vec2add, mat3id, rawTag, dictInsert]
    decide
  · norm_num [dictLookup]
  · simp

/-- C6 amended: when `update_shape` returns (and the element's handle keys
are unique, the documented invariant), it has inserted or overwritten
exactly one freshly built (artifact, bbox) entry per handle processed
before the first unknown tag, and every key not among those processed keys
— in particular any stale key from an earlier call — still resolves as it
did in the prior mapping. -/
theorem optical_update_shape_incremental (rndrColor : List ℚ)
    (eHandles : List (String × RawHandle)) (prior res : Handles)
    (hres : opticalElementUpdateShape rndrColor eHandles prior = some res)
    (hnod : (eHandles.map Prod.fst).Nodup) :
    (∀ k rh, (k, rh) ∈ knownHandles eHandles →
      dictLookup res k = builtEntry rndrColor rh)
    ∧ (∀ k, k ∉ (knownHandles eHandles).map Prod.fst →
      dictLookup res k = dictLookup prior k) := by
  induction eHandles generalizing prior with
  | nil =>
    simp only [opticalElementUpdateShape, Option.some.injEq] at hres
    subst hres
    exact ⟨by simp [knownHandles], by simp [knownHandles]⟩
  | cons hd rest ih =>
    obtain ⟨key, rh⟩ := hd
    simp only [List.map_cons, List.nodup_cons] at hnod
    obtain ⟨hkey, hnodr⟩ := hnod
    cases hb : bbox_from_poly (List.map (transform_pt rh.2.1) rh.1) with
    | none =>
      simp only [opticalElementUpdateShape, transform_poly, hb] at hres
      exact Option.noConfusion hres
    | some bbox =>
      by_cases ht1 : rawTag rh = "polygon"
      · simp only [opticalElementUpdateShape, transform_poly, hb, if_pos ht1] at hres
        obtain ⟨ih1, ih2⟩ := ih _ hres hnodr
        have hknown : knownTag rh = true := by simp [knownTag, ht1]
        have hkh : knownHandles ((key, rh) :: rest) = (key, rh) :: knownHandles rest := by
          simp [knownHandles, List.takeWhile, hknown]
        constructor
        · intro k rh2 hmem
          rw [hkh] at hmem
          rcases List.mem_cons.mp hmem with heq | hmem2
          · rw [Prod.mk.injEq] at heq
            obtain ⟨hkk, hrr⟩ := heq
            rw [hkk, hrr]
            have hnotin : key ∉ (knownHandles rest).map Prod.fst := fun hc =>
              hkey (((List.takeWhile_sublist _).map Prod.fst).subset hc)
            rw [ih2 key hnotin, dictLookup_dictInsert_self]
            simp [builtEntry, transform_poly, hb, ht1]
          · exact ih1 k rh2 hmem2
        · intro k hk
          rw [hkh] at hk
          simp only [List.map_cons, List.mem_cons, not_or] at hk
          obtain ⟨hk1, hk2⟩ := hk
          rw [ih2 k hk2, dictLookup_dictInsert_other _ _ _ _ hk1]
      · by_cases ht2 : rawTag rh = "polyline"
        · simp only [opticalElementUpdateShape, transform_poly, hb, if_neg ht1,
            if_pos ht2] at hres
          obtain ⟨ih1, ih2⟩ := ih _ hres hnodr
          have hknown : knownTag rh = true := by simp [knownTag, ht2]
          have hkh : knownHandles ((key, rh) :: rest) = (key, rh) :: knownHandles rest := by
            simp [knownHandles, List.takeWhile, hknown]
          constructor
          · intro k rh2 hmem
            rw [hkh] at hmem
            rcases List.mem_cons.mp hmem with heq | hmem2
            · rw [Prod.mk.injEq] at heq
              obtain ⟨hkk, hrr⟩ := heq
              rw [hkk, hrr]
              have hnotin : key ∉ (knownHandles rest).map Prod.fst := fun hc =>
                hkey (((List.takeWhile_sublist _).map Prod.fst).subset hc)
              rw [ih2 key hnotin, dictLookup_dictInsert_self]
              simp [builtEntry, transform_poly, hb, ht1, ht2]
            · exact ih1 k rh2 hmem2
          · intro k hk
            rw [hkh] at hk
            simp only [List.map_cons, List.mem_cons, not_or] at hk
            obtain ⟨hk1, hk2⟩ := hk
            rw [ih2 k hk2, dictLookup_dictInsert_other _ _ _ _ hk1]
        · simp only [opticalElementUpdateShape, transform_poly, hb, if_neg ht1,
            if_neg ht2, Option.some.injEq] at hres
          subst hres
          have hknown : knownTag rh = false := by simp [knownTag, ht1, ht2]
          have hkh : knownHandles ((key, rh) :: rest) = [] := by
            simp [knownHandles, List.takeWhile, hknown]
          refine ⟨?_, fun k _ => rfl⟩
          intro k rh2 hmem
          rw [hkh] at hmem
          cases hmem

/-- C6 witness: the concrete run of the counterexample — the one current
handle (`shape`) gets its freshly built entry, every other key (such as the
stale `old`) resolves as in the prior mapping. -/
theorem optical_update_shape_incremental_witness :
    (∀ k rh,
        (k, rh) ∈ knownHandles
          [("shape", ([((1 : ℚ), (2 : ℚ))], (mat3id, (0, 0, 0)), "polygon"))] →
        dictLookup [(("old" : String), (Artifact.polyline [((9 : ℚ), (9 : ℚ))],
              (((9 : ℚ), (9 : ℚ)), ((9 : ℚ), (9 : ℚ))))),
            ("shape", (Artifact.polygon [(1, 2)] [1, 2, 3, 4] (some (5 / 2)),
              ((1, 2), (1, 2))))] k
          = builtEntry [1, 2, 3, 4] rh)
    ∧ (∀ k,
        k ∉ (knownHandles
          [("shape", ([((1 : ℚ), (2 : ℚ))], (mat3id, (0, 0, 0)), "polygon"))]).map Prod.fst →
        dictLookup [(("old" : String), (Artifact.polyline [((9 : ℚ), (9 : ℚ))],
              (((9 : ℚ), (9 : ℚ)), ((9 : ℚ), (9 : ℚ))))),
            ("shape", (Artifact.polygon [(1, 2)] [1, 2, 3, 4] (some (5 / 2)),
              ((1, 2), (1, 2))))] k
          = dictLookup [("old", (Artifact.polyline [(9, 9)], ((9, 9), (9, 9))))] k) :=
  optical_update_shape_incremental [1, 2, 3, 4]
    [("shape", ([(1, 2)], (mat3id, (0, 0, 0)), "polygon"))]
    [("old", (Artifact.polyline [(9, 9)], ((9, 9), (9, 9))))]
    [("old", (Artifact.polyline [(9, 9)], ((9, 9), (9, 9)))),
      ("shape", (Artifact.polygon [(1, 2)] [1, 2, 3, 4] (some (5 / 2)),
        ((1, 2), (1, 2))))]
    (by
      norm_num [opticalElementUpdateShape, transform_poly, transform_pt, bbox_from_poly,
        mat3block, mat2apply, coordFlip, tfrmT2, vec2add, mat3id, rawTag, dictInsert]
      decide)
    (by simp)

end RayOptics
